import Mathlib

/-!
# Verification of the Cake Time birthday-countdown computation

Shallow embedding of `src/lambda/lambda_function.py`, centred on
`HasBirthdayLaunchRequestHandler.handle` (lines 146-261): the conversion of the
stored month string to a month index, the construction of the next birthday
occurrence, the age / ordinal-suffix computation, the day-difference
computation and the spoken-phrase selection.

Calendar arithmetic mirrors CPython's `datetime` module: `days_before_year`,
`days_before_month`, `days_in_month` and `ymd2ord` are transliterations of
`_days_before_year`, `_days_before_month`, `_days_in_month` and `_ymd2ord`
from CPython's `datetime.py`, which underlie `datetime.__sub__` (`.days`) and
`datetime.__gt__` used by the handler.  Strings are modelled through their
character lists; `pyTitle`, `strTake` and `pyReplace` embed Python's
`str.title`, slicing `s[:3]` and `str.replace` (all occurrences,
left-to-right) for the ASCII inputs the skill handles.
-/

/-- A calendar date (year, month, day), the content of a Python
`datetime` at midnight as the handler uses it. -/
structure CalDate where
  year : Nat
  month : Nat
  day : Nat
deriving DecidableEq

/-- The persisted birthday attributes: `year = int(attr['year'])`,
`month = attr['month']` (a string), `day = int(attr['day'])`. -/
structure BirthRecord where
  year : Int
  month : String
  day : Nat
deriving DecidableEq

/-- The transient outcome of one launch computation: the spec's
`BirthdayOutcome` fields plus the internal `next_birthday` variable and the
final `speak_output` string. -/
structure BirthdayOutcome where
  isToday : Bool
  ageReached : Int
  daysUntilNext : Nat
  nextOccurrence : CalDate
  speak_output : String
deriving DecidableEq

/-! ## Python string helpers -/

/-- Python `s[:n]`: the first `n` characters. -/
def strTake (n : Nat) (s : String) : String :=
  ⟨s.data.take n⟩

/-- Core of `str.title`: a cased (here: alphabetic ASCII) character is
uppercased when the previous character is not cased, lowercased otherwise. -/
def pyTitleAux : Bool → List Char → List Char
  | _, [] => []
  | prevCased, c :: cs =>
    let cased := c.isAlpha
    (if cased then (if prevCased then c.toLower else c.toUpper) else c)
      :: pyTitleAux cased cs

/-- Python `str.title()` restricted to ASCII casing. -/
def pyTitle (s : String) : String :=
  ⟨pyTitleAux false s.data⟩

/-- Python `str.replace` on character lists: replace non-overlapping
occurrences of `pat` left to right, driven by fuel (one character of `s` is
consumed per step, so `s.length` fuel suffices). Assumes `pat ≠ []`, which
holds for the two patterns the handler uses. -/
def pyReplaceAux (pat rep : List Char) : Nat → List Char → List Char
  | 0, s => s
  | fuel + 1, s =>
    match s with
    | [] => []
    | c :: cs =>
      if pat.isPrefixOf (c :: cs) then
        rep ++ pyReplaceAux pat rep fuel (cs.drop (pat.length - 1))
      else
        c :: pyReplaceAux pat rep fuel cs

/-- Python `str.replace(pat, rep)` (all occurrences). -/
def pyReplace (s pat rep : String) : String :=
  if pat.data = [] then s
  else ⟨pyReplaceAux pat.data rep.data s.data.length s.data⟩

/-- Python `s[-1]` on a nonempty string (the handler only applies it to
`str(age)`, which is never empty). -/
def lastChar (s : String) : Char :=
  s.data.getLastD 'A'

/-! ## Month lookup: `list(calendar.month_abbr).index(month[:3].title())` -/

/-- The table `calendar.month_abbr`: the placeholder empty string at index 0 followed by
the twelve 3-letter English abbreviations. -/
def month_abbr : List String :=
  ["", "Jan", "Feb", "Mar", "Apr", "May", "Jun",
   "Jul", "Aug", "Sep", "Oct", "Nov", "Dec"]

/-- Python `list.index`: index of the first occurrence, or failure
(`ValueError`) when the element is absent. -/
def listIndex (x : String) : List String → Nat → Option Nat
  | [], _ => none
  | y :: ys, i => if y = x then some i else listIndex x ys (i + 1)

/-- Line 198: `month_as_index = list(calendar.month_abbr).index(month[:3].title())`;
`none` models the `ValueError` raised when the lookup fails. -/
def month_as_index (month : String) : Option Nat :=
  listIndex (pyTitle (strTake 3 month)) month_abbr 0

/-! ## CPython `datetime` calendar arithmetic -/

/-- CPython `_is_leap`. -/
def isLeap (y : Nat) : Bool :=
  y % 4 == 0 && (y % 100 != 0 || y % 400 == 0)

/-- CPython `_DAYS_IN_MONTH` (index 0 is a placeholder, never read for a
month in 1..12). -/
def DAYS_IN_MONTH : List Nat :=
  [0, 31, 28, 31, 30, 31, 30, 31, 31, 30, 31, 30, 31]

/-- CPython `_DAYS_BEFORE_MONTH` (index 0 is a placeholder). -/
def DAYS_BEFORE_MONTH : List Nat :=
  [0, 0, 31, 59, 90, 120, 151, 181, 212, 243, 273, 304, 334]

/-- CPython `_days_in_month(year, month)`. -/
def days_in_month (y m : Nat) : Nat :=
  if m == 2 && isLeap y then 29 else DAYS_IN_MONTH.getD m 0

/-- CPython `_days_before_month(year, month)`. -/
def days_before_month (y m : Nat) : Nat :=
  DAYS_BEFORE_MONTH.getD m 0 + (if m > 2 && isLeap y then 1 else 0)

/-- CPython `_days_before_year(year)`: `y = year - 1;
y*365 + y//4 - y//100 + y//400` (the subtraction never truncates since
`y/100 ≤ y/4`). -/
def days_before_year (year : Nat) : Nat :=
  (year - 1) * 365 + (year - 1) / 4 - (year - 1) / 100 + (year - 1) / 400

/-- CPython `_ymd2ord(year, month, day)`: the proleptic Gregorian ordinal that
`datetime` subtraction (`.days`) is computed from. -/
def ymd2ord (y m d : Nat) : Nat :=
  days_before_year y + days_before_month y m + d

/-- Ordinal of a `CalDate`. -/
def ordOf (d : CalDate) : Nat :=
  ymd2ord d.year d.month d.day

/-- The `datetime` constructor's `_check_date_fields`: `MINYEAR ≤ year ≤
MAXYEAR`, `1 ≤ month ≤ 12`, `1 ≤ day ≤ days_in_month(year, month)`; `none`
models the `ValueError` raised on violation. -/
def mkDate (y m d : Nat) : Option CalDate :=
  if 1 ≤ y ∧ y ≤ 9999 ∧ 1 ≤ m ∧ m ≤ 12 ∧ 1 ≤ d ∧ d ≤ days_in_month y m
  then some ⟨y, m, d⟩ else none

/-- The `datetime` order (`now_date > next_birthday` is `dateLt next_birthday
now_date`): lexicographic on (year, month, day), as CPython compares the
packed date fields byte-wise. -/
def dateLt (a b : CalDate) : Bool :=
  a.year < b.year ∨
    (a.year = b.year ∧ (a.month < b.month ∨ (a.month = b.month ∧ a.day < b.day)))

/-! ## The handler computation (lines 194-253) -/

/-- Lines 214-222: the ordinal suffix chosen from the last character of
`str(age)`. -/
def ordinalFromStr (age : String) : String :=
  if lastChar age = '1' then "st"
  else if lastChar age = '2' then "nd"
  else if lastChar age = '3' then "rd"
  else "th"

/-- Lines 240-247: the countdown phrase, singularized by the two
`str.replace` calls when `diff_days == 1`. -/
def countdownSpeech (diff_days : Nat) (ageStr ordinal : String) : String :=
  let s := "Welcome back. It looks like there are " ++ toString diff_days
    ++ " days until your " ++ ageStr ++ ordinal ++ " birthday"
  if diff_days = 1 then pyReplace (pyReplace s "are" "is") "days" "day" else s

/-- Lines 213-253 after `next_birthday` and `current_year` are settled:
age, ordinal suffix, today test, day difference, phrase. -/
def mkOutcome (record : BirthRecord) (now : CalDate) (current_year : Nat)
    (next_birthday : CalDate) : BirthdayOutcome :=
  let age : Int := (current_year : Int) - record.year
  let ageStr := toString age
  let ordinal := ordinalFromStr ageStr
  if now = next_birthday then
    { isToday := true, ageReached := age, daysUntilNext := 0,
      nextOccurrence := next_birthday,
      speak_output := "Happy " ++ ageStr ++ ordinal ++ " birthday!" }
  else
    let diff_days := ((ordOf now : Int) - (ordOf next_birthday : Int)).natAbs
    { isToday := false, ageReached := age, daysUntilNext := diff_days,
      nextOccurrence := next_birthday,
      speak_output := countdownSpeech diff_days ageStr ordinal }

/-- Lines 194-253 of `HasBirthdayLaunchRequestHandler.handle`: month lookup,
`next_birthday` construction, the year advance when the birthday has passed,
and the outcome.  `none` models an uncaught exception (month lookup
`ValueError` or `datetime` construction failure), which the skill routes to
`CatchAllExceptionHandler`. -/
def computeOutcome (record : BirthRecord) (now : CalDate) : Option BirthdayOutcome :=
  match month_as_index record.month with
  | none => none
  | some month_idx =>
    match mkDate now.year month_idx record.day with
    | none => none
    | some next_birthday =>
      if dateLt next_birthday now then
        match mkDate (now.year + 1) month_idx record.day with
        | none => none
        | some next_birthday1 => some (mkOutcome record now (now.year + 1) next_birthday1)
      else
        some (mkOutcome record now now.year next_birthday)

/-! ## The handler's error boundary (lines 176-188) -/

/-- The spoken part of the response the handler returns. -/
structure SkillResponse where
  speech : String
deriving DecidableEq

/-- Lines 176-261 as seen from the outside: the timezone resolution either
yields the resolved current calendar date (`some now`) or fails (`none`, the
`except` branch at lines 186-188, returning the fixed apology).  An uncaught
exception from the countdown computation is routed by the SDK to
`CatchAllExceptionHandler` (lines 441-463). -/
def handleHasBirthday (record : BirthRecord) (resolvedNow : Option CalDate) :
    SkillResponse :=
  match resolvedNow with
  | none => ⟨"There was a problem connecting to the service"⟩
  | some now =>
    match computeOutcome record now with
    | some out => ⟨out.speak_output⟩
    | none => ⟨"Sorry, I had trouble doing what you asked. Please try again."⟩

/-! ## Auxiliary decidable string predicates -/

/-- Whether `pat` occurs as a contiguous substring of `s`. -/
def hasSubstr (s pat : String) : Bool :=
  (List.range (s.data.length + 1)).any fun i => pat.data.isPrefixOf (s.data.drop i)

/-- Whether `s` contains a decimal digit. -/
def containsDigit (s : String) : Bool :=
  s.data.any Char.isDigit

/-- Validity of a calendar date, exactly the `datetime` constructor check;
`datetime.now(...)` always yields a date satisfying it. -/
def validDate (d : CalDate) : Bool :=
  decide (1 ≤ d.year ∧ d.year ≤ 9999 ∧ 1 ≤ d.month ∧ d.month ≤ 12 ∧
    1 ≤ d.day ∧ d.day ≤ days_in_month d.year d.month)

/-! ## Spec-side month matcher (for comparison with the code's lookup) -/

/-- Full English month names. -/
def month_names_full : List String :=
  ["January", "February", "March", "April", "May", "June", "July",
   "August", "September", "October", "November", "December"]

/-- ASCII lowercasing of a string. -/
def lowerStr (s : String) : String :=
  ⟨s.data.map Char.toLower⟩

/-- Spec-worded matcher, for refutation only — written from the spec's words
"case-insensitive matching against full or 3-letter month names", not from
the source: the whole stored string must match a full name or a 3-letter
abbreviation up to case. -/
def specMonthMatch (s : String) : Option Nat :=
  (List.range 12).findSome? fun i =>
    if lowerStr s = lowerStr (month_names_full.getD i "") ∨
       lowerStr s = lowerStr (month_abbr.getD (i + 1) "") then
      some (i + 1)
    else none

/-! ## Helper lemmas -/

/-- Successful `mkDate` returns exactly the requested triple, and that triple
is a valid date. -/
lemma mkDate_some {y m d : Nat} {c : CalDate} (h : mkDate y m d = some c) :
    c = ⟨y, m, d⟩ ∧ validDate c = true := by
  unfold mkDate at h
  split at h
  · rename_i hv
    cases h
    refine ⟨rfl, ?_⟩
    simpa [validDate] using hv
  · cases h

lemma mkOutcome_nextOccurrence (r : BirthRecord) (now : CalDate) (cy : Nat)
    (nb : CalDate) : (mkOutcome r now cy nb).nextOccurrence = nb := by
  simp only [mkOutcome]
  split <;> rfl

lemma mkOutcome_ageReached (r : BirthRecord) (now : CalDate) (cy : Nat)
    (nb : CalDate) : (mkOutcome r now cy nb).ageReached = (cy : Int) - r.year := by
  simp only [mkOutcome]
  split <;> rfl

/-- Python `list.index` succeeds exactly on membership (at any starting
offset). -/
lemma listIndex_isSome (x : String) :
    ∀ (l : List String) (i : Nat), (listIndex x l i).isSome = true ↔ x ∈ l := by
  intro l
  induction l with
  | nil => intro i; simp [listIndex]
  | cons y ys ih =>
    intro i
    simp only [listIndex]
    split
    · rename_i hyx
      subst hyx
      simp
    · rename_i hyx
      rw [ih (i + 1)]
      constructor
      · exact fun hmem => List.mem_cons_of_mem _ hmem
      · intro hmem
        rcases List.mem_cons.mp hmem with h | h
        · exact absurd h.symm hyx
        · exact h

/-- The month lookup succeeds exactly when the title-cased 3-character prefix
of the stored string is an entry of `calendar.month_abbr`. -/
lemma month_as_index_isSome (s : String) :
    (month_as_index s).isSome = true ↔ pyTitle (strTake 3 s) ∈ month_abbr :=
  listIndex_isSome _ month_abbr 0

/-! ## Claims about month conversion -/

/-- C5 counterexample: the string "Janzzz" matches no full month name and no
3-letter abbreviation even case-insensitively, yet the code's conversion
accepts it as month 1 instead of failing. -/
theorem C5_counterexample :
    specMonthMatch "Janzzz" = none ∧ month_as_index "Janzzz" = some 1 :=
  ⟨rfl, rfl⟩

/-- C5 (amended): month-name conversion title-cases the first three
characters of the stored string and looks the result up in the
month-abbreviation table (whose index 0 is the empty placeholder); it fails
with `InvalidMonthError` exactly when that prefix is not in the table, and in
particular the unrecognized month string "Smarch" yields the error rather
than any index. -/
theorem C5_amended :
    month_as_index "Smarch" = none ∧
    (∀ s : String, month_as_index s = none ↔ pyTitle (strTake 3 s) ∉ month_abbr) := by
  refine ⟨rfl, fun s => ?_⟩
  rw [← month_as_index_isSome]
  cases month_as_index s <;> simp

/-- C10: month matching is a 3-character title-cased prefix lookup against
the month-abbreviation table including its empty placeholder: conversion
succeeds exactly when the title-cased 3-character prefix is an entry of the
table; "Janzzz" is accepted as month 1, and the empty string matches the
placeholder, yielding index 0 rather than a no-match error at the lookup
step. -/
theorem C10_prefix_lookup :
    (∀ s : String, (month_as_index s).isSome = true ↔ pyTitle (strTake 3 s) ∈ month_abbr) ∧
    month_as_index "Janzzz" = some 1 ∧
    month_as_index "" = some 0 :=
  ⟨month_as_index_isSome, rfl, rfl⟩

/-! ## Concrete scenario claims -/

/-- C6: for the birth record 2014 / November / 6 and the resolved current
date 2023-11-06, the outcome has `isToday = true`, `ageReached = 9`, and the
spoken phrase is exactly "Happy 9th birthday!". -/
theorem C6_birthday_today :
    computeOutcome ⟨2014, "November", 6⟩ ⟨2023, 11, 6⟩ =
      some { isToday := true, ageReached := 9, daysUntilNext := 0,
             nextOccurrence := ⟨2023, 11, 6⟩,
             speak_output := "Happy 9th birthday!" } :=
  rfl

/-- C7: for the birth record 2014 / November / 6 and the resolved current
date 2023-11-05, the outcome has `isToday = false` and `daysUntilNext = 1`,
and the spoken phrase is the countdown phrase with "are" and "days" replaced
by "is" and "day". -/
theorem C7_day_before :
    computeOutcome ⟨2014, "November", 6⟩ ⟨2023, 11, 5⟩ =
      some { isToday := false, ageReached := 9, daysUntilNext := 1,
             nextOccurrence := ⟨2023, 11, 6⟩,
             speak_output :=
               "Welcome back. It looks like there is 1 day until your 9th birthday" } ∧
    "Welcome back. It looks like there is 1 day until your 9th birthday" =
      pyReplace (pyReplace
        "Welcome back. It looks like there are 1 days until your 9th birthday"
        "are" "is") "days" "day" :=
  ⟨rfl, rfl⟩

/-! ## Determinism / purity -/

/-- C8: the countdown computation is a pure function of the stored record and
the resolved current date: runs on equal inputs produce equal outcomes
(including the spoken phrase), and the computation touches no other state. -/
theorem C8_deterministic (r1 r2 : BirthRecord) (n1 n2 : CalDate)
    (hr : r1 = r2) (hn : n1 = n2) :
    computeOutcome r1 n1 = computeOutcome r2 n2 := by
  subst hr; subst hn; rfl

/-- Witness for C8 at concrete equal inputs. -/
theorem C8_witness :
    (⟨2014, "November", 6⟩ : BirthRecord) = ⟨2014, "November", 6⟩ ∧
    (⟨2023, 11, 6⟩ : CalDate) = ⟨2023, 11, 6⟩ ∧
    computeOutcome ⟨2014, "November", 6⟩ ⟨2023, 11, 6⟩ =
      computeOutcome ⟨2014, "November", 6⟩ ⟨2023, 11, 6⟩ :=
  ⟨rfl, rfl, C8_deterministic ⟨2014, "November", 6⟩ ⟨2014, "November", 6⟩
    ⟨2023, 11, 6⟩ ⟨2023, 11, 6⟩ rfl rfl⟩

/-! ## Timezone-failure response -/

/-- C9: when the timezone resolution fails, the handler returns the fixed
failure response "There was a problem connecting to the service" regardless
of the stored record; the speech carries no digits (so no countdown and no
age) and no birthday phrase, and the failure is a normal response, not a
propagated fault. -/
theorem C9_timezone_failure (record : BirthRecord) :
    handleHasBirthday record none =
      ⟨"There was a problem connecting to the service"⟩ ∧
    containsDigit (handleHasBirthday record none).speech = false ∧
    hasSubstr (handleHasBirthday record none).speech "birthday" = false :=
  ⟨rfl, rfl, rfl⟩

/-! ## Year-advance / reference-year claims -/

/-- C1: with the month index resolved, if the current date is strictly after
this year's occurrence `date(now.year, monthIndex, day)` then the next
occurrence used is `date(now.year + 1, monthIndex, day)` and
`ageReached = (now.year + 1) - record.year`; otherwise the next occurrence is
this year's and `ageReached = now.year - record.year`. -/
theorem C1_year_advance (record : BirthRecord) (now : CalDate) (mi : Nat)
    (out : BirthdayOutcome)
    (hmi : month_as_index record.month = some mi)
    (hout : computeOutcome record now = some out) :
    if dateLt ⟨now.year, mi, record.day⟩ now then
      out.nextOccurrence = ⟨now.year + 1, mi, record.day⟩ ∧
        out.ageReached = ((now.year : Int) + 1) - record.year
    else
      out.nextOccurrence = ⟨now.year, mi, record.day⟩ ∧
        out.ageReached = (now.year : Int) - record.year := by
  unfold computeOutcome at hout
  rw [hmi] at hout
  dsimp only at hout
  cases h1 : mkDate now.year mi record.day with
  | none => rw [h1] at hout; cases hout
  | some nb0 =>
    rw [h1] at hout
    dsimp only at hout
    obtain ⟨rfl, -⟩ := mkDate_some h1
    by_cases hlt : dateLt ⟨now.year, mi, record.day⟩ now
    · rw [if_pos hlt] at hout ⊢
      cases h2 : mkDate (now.year + 1) mi record.day with
      | none => rw [h2] at hout; cases hout
      | some nb1 =>
        rw [h2] at hout
        dsimp only at hout
        obtain ⟨rfl, -⟩ := mkDate_some h2
        cases hout
        refine ⟨mkOutcome_nextOccurrence .., ?_⟩
        rw [mkOutcome_ageReached]
        push_cast
        ring
    · rw [if_neg hlt] at hout ⊢
      cases hout
      exact ⟨mkOutcome_nextOccurrence .., mkOutcome_ageReached ..⟩

/-- Witness for C1 at the concrete record 2014 / November / 6 and current
date 2023-01-01 (the not-yet-passed branch). -/
theorem C1_witness :
    month_as_index "November" = some 11 ∧
    computeOutcome ⟨2014, "November", 6⟩ ⟨2023, 1, 1⟩ =
      some { isToday := false, ageReached := 9, daysUntilNext := 309,
             nextOccurrence := ⟨2023, 11, 6⟩,
             speak_output :=
               "Welcome back. It looks like there are 309 days until your 9th birthday" } ∧
    (if dateLt ⟨2023, 11, 6⟩ ⟨2023, 1, 1⟩ then
      ({ isToday := false, ageReached := 9, daysUntilNext := 309,
         nextOccurrence := ⟨2023, 11, 6⟩,
         speak_output :=
           "Welcome back. It looks like there are 309 days until your 9th birthday" } :
         BirthdayOutcome).nextOccurrence = ⟨2023 + 1, 11, 6⟩ ∧
        ({ isToday := false, ageReached := 9, daysUntilNext := 309,
           nextOccurrence := ⟨2023, 11, 6⟩,
           speak_output :=
             "Welcome back. It looks like there are 309 days until your 9th birthday" } :
           BirthdayOutcome).ageReached = ((2023 : Int) + 1) - 2014
    else
      ({ isToday := false, ageReached := 9, daysUntilNext := 309,
         nextOccurrence := ⟨2023, 11, 6⟩,
         speak_output :=
           "Welcome back. It looks like there are 309 days until your 9th birthday" } :
         BirthdayOutcome).nextOccurrence = ⟨2023, 11, 6⟩ ∧
        ({ isToday := false, ageReached := 9, daysUntilNext := 309,
           nextOccurrence := ⟨2023, 11, 6⟩,
           speak_output :=
             "Welcome back. It looks like there are 309 days until your 9th birthday" } :
           BirthdayOutcome).ageReached = (2023 : Int) - 2014) :=
  ⟨rfl, rfl, C1_year_advance ⟨2014, "November", 6⟩ ⟨2023, 1, 1⟩ 11 _ rfl rfl⟩

/-- C3 counterexample: for the birth record 2014 / November / 6 and current
date 2023-11-05, the current date differs from this year's occurrence
2023-11-06, yet the reference year used is 2023 (age 9), not
2023 + 1 (which would give age 10) as the claim states. -/
theorem C3_counterexample :
    month_as_index "November" = some 11 ∧
    (⟨2023, 11, 5⟩ : CalDate) ≠ ⟨2023, 11, 6⟩ ∧
    computeOutcome ⟨2014, "November", 6⟩ ⟨2023, 11, 5⟩ =
      some { isToday := false, ageReached := 9, daysUntilNext := 1,
             nextOccurrence := ⟨2023, 11, 6⟩,
             speak_output :=
               "Welcome back. It looks like there is 1 day until your 9th birthday" } ∧
    ((2023 : Int) + 1) - 2014 ≠ 9 :=
  ⟨rfl, by decide, rfl, by decide⟩

/-- C3 (amended): the reference year for the age is `now.year + 1` exactly
when the current date is strictly after this year's occurrence; when the
current date equals this year's occurrence or precedes it, the reference year
is `now.year`. -/
theorem C3_reference_year (record : BirthRecord) (now : CalDate) (mi : Nat)
    (out : BirthdayOutcome)
    (hmi : month_as_index record.month = some mi)
    (hout : computeOutcome record now = some out) :
    out.ageReached =
      if dateLt ⟨now.year, mi, record.day⟩ now then ((now.year : Int) + 1) - record.year
      else (now.year : Int) - record.year := by
  have h := C1_year_advance record now mi out hmi hout
  by_cases hlt : dateLt ⟨now.year, mi, record.day⟩ now
  · rw [if_pos hlt] at h ⊢
    exact h.2
  · rw [if_neg hlt] at h ⊢
    exact h.2

/-- Witness for C3 (amended) at the concrete record 2014 / November / 6 and
current date 2023-12-01 (the already-passed branch). -/
theorem C3_witness :
    month_as_index "November" = some 11 ∧
    computeOutcome ⟨2014, "November", 6⟩ ⟨2023, 12, 1⟩ =
      some { isToday := false, ageReached := 10, daysUntilNext := 341,
             nextOccurrence := ⟨2024, 11, 6⟩,
             speak_output :=
               "Welcome back. It looks like there are 341 days until your 10th birthday" } ∧
    ({ isToday := false, ageReached := 10, daysUntilNext := 341,
       nextOccurrence := ⟨2024, 11, 6⟩,
       speak_output :=
         "Welcome back. It looks like there are 341 days until your 10th birthday" } :
       BirthdayOutcome).ageReached =
      (if dateLt ⟨(2023 : Nat), 11, 6⟩ ⟨2023, 12, 1⟩ then ((2023 : Int) + 1) - 2014
       else (2023 : Int) - 2014) :=
  ⟨rfl, rfl, C3_reference_year ⟨2014, "November", 6⟩ ⟨2023, 12, 1⟩ 11 _ rfl rfl⟩

/-! ## Injectivity of the Gregorian ordinal on valid dates -/

lemma isLeap_iff (y : Nat) :
    isLeap y = true ↔ (y % 4 = 0 ∧ (y % 100 ≠ 0 ∨ y % 400 = 0)) := by
  simp [isLeap]

lemma dby_succ (y : Nat) (hy : 1 ≤ y) :
    days_before_year (y + 1) = days_before_year y + (if isLeap y then 366 else 365) := by
  have hiff := isLeap_iff y
  by_cases hL : isLeap y = true
  · rw [if_pos hL]
    have h := hiff.mp hL
    simp only [days_before_year]
    omega
  · rw [if_neg hL]
    have h : ¬(y % 4 = 0 ∧ (y % 100 ≠ 0 ∨ y % 400 = 0)) := fun hc => hL (hiff.mpr hc)
    simp only [days_before_year]
    rcases Nat.eq_zero_or_pos (y % 4) with h4 | h4
    · rcases Nat.eq_zero_or_pos (y % 100) with h100 | h100
      · rcases Nat.eq_zero_or_pos (y % 400) with h400 | h400
        · exact absurd ⟨h4, Or.inr h400⟩ h
        · omega
      · exact absurd ⟨h4, Or.inl (by omega)⟩ h
    · omega

lemma dby_mono {y1 y2 : Nat} (h1 : 1 ≤ y1) (h : y1 ≤ y2) :
    days_before_year y1 ≤ days_before_year y2 := by
  induction y2, h using Nat.le_induction with
  | base => exact le_refl _
  | succ n hn ih =>
    calc days_before_year y1 ≤ days_before_year n := ih
    _ ≤ days_before_year (n + 1) := by
        rw [dby_succ n (le_trans h1 hn)]; split <;> omega

lemma month_table (L : Bool) :
    ∀ m1, m1 < 13 → ∀ m2, m2 < 13 → 1 ≤ m1 → m1 < m2 →
      DAYS_BEFORE_MONTH.getD m1 0 + (if m1 > 2 && L then 1 else 0)
          + (if m1 == 2 && L then 29 else DAYS_IN_MONTH.getD m1 0)
        ≤ DAYS_BEFORE_MONTH.getD m2 0 + (if m2 > 2 && L then 1 else 0) := by
  cases L <;> decide

lemma dbm_dim_le {y m1 m2 : Nat} (h1 : 1 ≤ m1) (h2 : m1 < m2) (h3 : m2 ≤ 12) :
    days_before_month y m1 + days_in_month y m1 ≤ days_before_month y m2 := by
  have := month_table (isLeap y) m1 (by omega) m2 (by omega) h1 h2
  simpa [days_before_month, days_in_month] using this

lemma year_table (L : Bool) :
    ∀ m, m < 13 → 1 ≤ m →
      DAYS_BEFORE_MONTH.getD m 0 + (if m > 2 && L then 1 else 0)
          + (if m == 2 && L then 29 else DAYS_IN_MONTH.getD m 0)
        ≤ (if L then 366 else 365) := by
  cases L <;> decide

lemma dbm_dim_year {y m : Nat} (h1 : 1 ≤ m) (h2 : m ≤ 12) :
    days_before_month y m + days_in_month y m ≤ (if isLeap y then 366 else 365) := by
  have := year_table (isLeap y) m (by omega) h1
  simpa [days_before_month, days_in_month] using this

lemma validDate_spec {d : CalDate} (h : validDate d = true) :
    1 ≤ d.year ∧ d.year ≤ 9999 ∧ 1 ≤ d.month ∧ d.month ≤ 12 ∧
      1 ≤ d.day ∧ d.day ≤ days_in_month d.year d.month := by
  simpa [validDate] using h

lemma ordOf_lt {a b : CalDate} (ha : validDate a = true) (hb : validDate b = true)
    (hlt : dateLt a b = true) : ordOf a < ordOf b := by
  obtain ⟨hay, -, ham1, ham2, had1, had2⟩ := validDate_spec ha
  obtain ⟨hby, -, hbm1, hbm2, hbd1, hbd2⟩ := validDate_spec hb
  have hlt' : a.year < b.year ∨
      (a.year = b.year ∧ (a.month < b.month ∨ (a.month = b.month ∧ a.day < b.day))) := by
    simpa [dateLt] using hlt
  unfold ordOf ymd2ord
  rcases hlt' with hy | ⟨hy, hm | ⟨hm, hd⟩⟩
  · -- different year: a's offset stays within a.year, then step to b.year
    have hupper : days_before_month a.year a.month + a.day
        ≤ (if isLeap a.year then 366 else 365) :=
      le_trans (by omega) (dbm_dim_year ham1 ham2)
    have hstep : days_before_year (a.year + 1)
        = days_before_year a.year + (if isLeap a.year then 366 else 365) :=
      dby_succ a.year hay
    have hmono : days_before_year (a.year + 1) ≤ days_before_year b.year :=
      dby_mono (by omega) (by omega)
    have hlow : 1 ≤ days_before_month b.year b.month + b.day := by omega
    omega
  · -- same year, earlier month
    have h5 := dbm_dim_le ham1 hm hbm2 (y := a.year)
    rw [hy] at h5 had2 ⊢
    omega
  · -- same year and month, earlier day
    rw [hy, hm]
    omega

lemma dateLt_total {a b : CalDate} (hne : a ≠ b) :
    dateLt a b = true ∨ dateLt b a = true := by
  cases a with
  | mk ay am ad =>
    cases b with
    | mk by' bm bd =>
      simp only [ne_eq, CalDate.mk.injEq, not_and] at hne
      simp only [dateLt, decide_eq_true_eq]
      by_cases h1 : ay = by'
      · subst h1
        by_cases h2 : am = bm
        · subst h2
          have : ad ≠ bd := by intro h; exact hne rfl rfl h
          omega
        · omega
      · omega

lemma ordOf_ne {a b : CalDate} (ha : validDate a = true) (hb : validDate b = true)
    (hne : a ≠ b) : ordOf a ≠ ordOf b := by
  rcases dateLt_total hne with h | h
  · exact Nat.ne_of_lt (ordOf_lt ha hb h)
  · exact (Nat.ne_of_lt (ordOf_lt hb ha h)).symm

/-- On the not-today branch, the absolute day difference between two distinct
valid dates is at least 1, so the outcome's day count and today flag agree. -/
lemma mkOutcome_days_iff (r : BirthRecord) (now : CalDate) (cy : Nat)
    (nb : CalDate) (hnow : validDate now = true) (hnb : validDate nb = true) :
    (mkOutcome r now cy nb).daysUntilNext = 0 ↔ (mkOutcome r now cy nb).isToday = true := by
  simp only [mkOutcome]
  split
  · simp
  · rename_i hne
    simp only [Bool.false_eq_true, iff_false]
    intro h0
    have hord : ordOf now = ordOf nb := by
      have := Int.natAbs_eq_zero.mp h0
      omega
    exact ordOf_ne hnow hnb hne hord

/-- C2: for every stored record and valid resolved current date, the computed
`daysUntilNext` is 0 exactly when `isToday` holds: the not-today branch
always yields an absolute day difference of at least 1, and the today branch
corresponds to a difference of exactly 0. -/
theorem C2_days_zero_iff_today (record : BirthRecord) (now : CalDate)
    (out : BirthdayOutcome) (hnow : validDate now = true)
    (hout : computeOutcome record now = some out) :
    out.daysUntilNext = 0 ↔ out.isToday = true := by
  unfold computeOutcome at hout
  cases hm : month_as_index record.month with
  | none => rw [hm] at hout; cases hout
  | some mi =>
    rw [hm] at hout
    dsimp only at hout
    cases h1 : mkDate now.year mi record.day with
    | none => rw [h1] at hout; cases hout
    | some nb0 =>
      rw [h1] at hout
      dsimp only at hout
      obtain ⟨-, hv0⟩ := mkDate_some h1
      by_cases hlt : dateLt nb0 now
      · rw [if_pos hlt] at hout
        cases h2 : mkDate (now.year + 1) mi record.day with
        | none => rw [h2] at hout; cases hout
        | some nb1 =>
          rw [h2] at hout
          dsimp only at hout
          obtain ⟨-, hv1⟩ := mkDate_some h2
          cases hout
          exact mkOutcome_days_iff record now (now.year + 1) nb1 hnow hv1
      · rw [if_neg hlt] at hout
        cases hout
        exact mkOutcome_days_iff record now now.year nb0 hnow hv0

/-- Witness for C2 at the concrete record 2014 / November / 6 and current
date 2023-11-06 (the today branch). -/
theorem C2_witness :
    validDate ⟨2023, 11, 6⟩ = true ∧
    computeOutcome ⟨2014, "November", 6⟩ ⟨2023, 11, 6⟩ =
      some { isToday := true, ageReached := 9, daysUntilNext := 0,
             nextOccurrence := ⟨2023, 11, 6⟩,
             speak_output := "Happy 9th birthday!" } ∧
    (({ isToday := true, ageReached := 9, daysUntilNext := 0,
        nextOccurrence := ⟨2023, 11, 6⟩,
        speak_output := "Happy 9th birthday!" } : BirthdayOutcome).daysUntilNext = 0 ↔
      ({ isToday := true, ageReached := 9, daysUntilNext := 0,
         nextOccurrence := ⟨2023, 11, 6⟩,
         speak_output := "Happy 9th birthday!" } : BirthdayOutcome).isToday = true) :=
  ⟨rfl, rfl, C2_days_zero_iff_today ⟨2014, "November", 6⟩ ⟨2023, 11, 6⟩ _ rfl rfl⟩

/-! ## The ordinal-suffix rule -/

/-- The function `Nat.toDigitsCore` only prepends to its accumulator, so the last digit
pushed first stays last. -/
lemma toDigitsCore_getLast? (b : Nat) :
    ∀ (fuel n : Nat) (c : Char) (ds : List Char),
      (Nat.toDigitsCore b fuel n (c :: ds)).getLast? = (c :: ds).getLast? := by
  intro fuel
  induction fuel with
  | zero => intro n c ds; rfl
  | succ fuel ih =>
    intro n c ds
    simp only [Nat.toDigitsCore]
    split
    · exact List.getLast?_cons_cons
    · rw [ih]
      exact List.getLast?_cons_cons

/-- The last character of the decimal representation of a natural number is
the digit of `n % 10`. -/
lemma lastChar_natRepr (n : Nat) :
    lastChar (Nat.repr n) = Nat.digitChar (n % 10) := by
  show (Nat.toDigitsCore 10 (n + 1) n []).getLastD 'A' = Nat.digitChar (n % 10)
  simp only [Nat.toDigitsCore]
  split
  · rfl
  · rw [List.getLastD_eq_getLast?, toDigitsCore_getLast?]
    rfl

/-- For a nonnegative age, the code's suffix (read off the last character of
`str(age)`) is the stated function of `age % 10`. -/
lemma ordinal_of_nat (n : Nat) :
    ordinalFromStr (toString (n : Int)) =
      if n % 10 = 1 then "st"
      else if n % 10 = 2 then "nd"
      else if n % 10 = 3 then "rd"
      else "th" := by
  have h1 : toString ((n : Nat) : Int) = Nat.repr n := rfl
  rw [h1]
  unfold ordinalFromStr
  rw [lastChar_natRepr]
  have h10 : n % 10 < 10 := Nat.mod_lt _ (by norm_num)
  revert h10
  generalize n % 10 = k
  intro h10
  interval_cases k <;> decide

/-- C4 counterexample: the suffix is not a function of `ageReached mod 10`.
The computed ages 7 (record year 2016) and -13 (record year 2036, a stored
future birth year) are congruent modulo 10 — Python's `%` and Lean's `emod`
agree (`-13 % 10 == 7`) — yet the code suffixes them "th" and "rd": the
second outcome's phrase ends in "-13rd birthday" while the first ends in
"7th birthday". -/
theorem C4_counterexample :
    computeOutcome ⟨2016, "November", 6⟩ ⟨2023, 11, 5⟩ =
      some { isToday := false, ageReached := 7, daysUntilNext := 1,
             nextOccurrence := ⟨2023, 11, 6⟩,
             speak_output :=
               "Welcome back. It looks like there is 1 day until your 7th birthday" } ∧
    computeOutcome ⟨2036, "November", 6⟩ ⟨2023, 11, 5⟩ =
      some { isToday := false, ageReached := -13, daysUntilNext := 1,
             nextOccurrence := ⟨2023, 11, 6⟩,
             speak_output :=
               "Welcome back. It looks like there is 1 day until your -13rd birthday" } ∧
    (7 : Int) % 10 = (-13 : Int) % 10 ∧
    ordinalFromStr (toString (7 : Int)) = "th" ∧
    ordinalFromStr (toString (-13 : Int)) = "rd" :=
  ⟨rfl, rfl, rfl, rfl, rfl⟩

/-- C4 (amended): for every nonnegative computed `ageReached`, the ordinal
suffix is purely a function of `ageReached mod 10`: last digit 1 gives "st",
2 gives "nd", 3 gives "rd", and every other last digit gives "th", with no
teens exception — in particular ages 11, 12 and 13 receive "st", "nd" and
"rd".  (A negative age — reachable only from a stored future birth year —
follows the last character of its decimal representation instead.) -/
theorem C4_ordinal_rule :
    (∀ n : Nat, ordinalFromStr (toString (n : Int)) =
      if n % 10 = 1 then "st"
      else if n % 10 = 2 then "nd"
      else if n % 10 = 3 then "rd"
      else "th") ∧
    ordinalFromStr (toString (11 : Int)) = "st" ∧
    ordinalFromStr (toString (12 : Int)) = "nd" ∧
    ordinalFromStr (toString (13 : Int)) = "rd" :=
  ⟨ordinal_of_nat, rfl, rfl, rfl⟩

/-- Witness for C4 (amended) at the concrete age 24. -/
theorem C4_witness :
    ordinalFromStr (toString ((24 : Nat) : Int)) =
      if (24 : Nat) % 10 = 1 then "st"
      else if (24 : Nat) % 10 = 2 then "nd"
      else if (24 : Nat) % 10 = 3 then "rd"
      else "th" :=
  C4_ordinal_rule.1 24

/-- Witness for C5 (amended) at the concrete month string "Smarch". -/
theorem C5_witness :
    month_as_index "Smarch" = none ∧
    (month_as_index "Smarch" = none ↔ pyTitle (strTake 3 "Smarch") ∉ month_abbr) :=
  ⟨C5_amended.1, C5_amended.2 "Smarch"⟩

/-- Witness for C9 at the concrete record 2014 / November / 6. -/
theorem C9_witness :
    handleHasBirthday ⟨2014, "November", 6⟩ none =
      ⟨"There was a problem connecting to the service"⟩ ∧
    containsDigit (handleHasBirthday ⟨2014, "November", 6⟩ none).speech = false ∧
    hasSubstr (handleHasBirthday ⟨2014, "November", 6⟩ none).speech "birthday" = false :=
  C9_timezone_failure ⟨2014, "November", 6⟩

/-- Witness for C10 at the concrete month strings "November", "Janzzz" and
the empty string. -/
theorem C10_witness :
    ((month_as_index "November").isSome = true ↔
      pyTitle (strTake 3 "November") ∈ month_abbr) ∧
    month_as_index "Janzzz" = some 1 ∧
    month_as_index "" = some 0 :=
  ⟨C10_prefix_lookup.1 "November", C10_prefix_lookup.2.1, C10_prefix_lookup.2.2⟩
